import Mathlib

/-!
Shallow embedding of `champs_league.py`: a Champions League data fetcher that
resolves team names to synthetic ids through an in-memory registry and maps
API responses onto CSV rows.  Global mutable state (`teams_dict`,
`team_id_counter`) is threaded explicitly as a `RegState`; dictionary key
absence is modelled with `Option`; network/parse failure of a stage's HTTP
request is modelled as the `Except.error` case of the stage's input.
-/

namespace ChampsLeague

/-- One value of the global `teams_dict`: `{'id': ..., 'name': ..., 'api_id': ...}`. -/
structure TeamEntry where
  id : Nat
  name : String
  api_id : Option Int
  deriving DecidableEq, Repr

/-- The global mutable state of the script: `teams_dict` (a Python dict,
modelled as an insertion-ordered association list) and `team_id_counter`. -/
structure RegState where
  teams : List (String × TeamEntry)
  counter : Nat
  deriving DecidableEq, Repr

/-- Initial global state: `teams_dict = {}`, `team_id_counter = 1`. -/
def regInit : RegState := ⟨[], 1⟩

/-- `get_or_create_team_id(team_name, team_api_id=None)`:
if `team_name not in teams_dict`, insert a fresh entry carrying the current
counter value at the end of the dict and bump the counter; return the stored id. -/
def get_or_create_team_id (team_name : String) (team_api_id : Option Int)
    (st : RegState) : Nat × RegState :=
  match st.teams.find? (fun p => p.1 == team_name) with
  | some p => (p.2.id, st)
  | none =>
      (st.counter,
       ⟨st.teams ++ [(team_name, ⟨st.counter, team_name, team_api_id⟩)], st.counter + 1⟩)

/-- Run a sequence of `get_or_create_team_id` calls (name, api id) against a state. -/
def runCalls : List (String × Option Int) → RegState → RegState
  | [], st => st
  | (n, a) :: rest, st => runCalls rest (get_or_create_team_id n a st).2

/-- The dict's keys in insertion order. -/
def regKeys (st : RegState) : List String := st.teams.map Prod.fst

/-- The names of `calls` that are not in `seen`, first occurrences only, in
order of first sighting.  Describes which keys a call sequence adds to the dict. -/
def newNames (seen : List String) : List String → List String
  | [] => []
  | n :: rest => if n ∈ seen then newNames seen rest else n :: newNames (n :: seen) rest

/-- A CSV cell as the Python script passes it to `csv.writer`:
an int, a string, Python `None`, or a goal's raw running-score dict. -/
inductive Cell where
  | int (n : Int)
  | nat (n : Nat)
  | str (s : String)
  | pynone
  | snap (s : Option (Option Int × Option Int))
  deriving DecidableEq, Repr

/-- Stable insertion into a list sorted by ascending synthetic id
(`sorted(..., key=lambda x: x[1]['id'])` is a stable ascending sort). -/
def insertById (p : String × TeamEntry) : List (String × TeamEntry) → List (String × TeamEntry)
  | [] => [p]
  | q :: rest => if q.2.id ≤ p.2.id then q :: insertById p rest else p :: q :: rest

/-- Stable sort of the dict items by ascending synthetic id. -/
def sortById : List (String × TeamEntry) → List (String × TeamEntry)
  | [] => []
  | p :: rest => insertById p (sortById rest)

/-- `save_teams_table()`: one data row `[team_id, team_name, api_id]` per dict
entry, in ascending synthetic-id order (`csv.writer` writes Python `None` as empty). -/
def save_teams_table (st : RegState) : List (List Cell) :=
  (sortById st.teams).map fun p =>
    [Cell.nat p.2.id, Cell.str p.2.name,
     match p.2.api_id with | some i => Cell.int i | none => Cell.pynone]

/-! ## Matches & goals fetcher -/

/-- `match['homeTeam']` / `match['awayTeam']`: a team object with name and API id. -/
structure TeamRef where
  name : String
  id : Int
  deriving DecidableEq, Repr

/-- `match['score']['fullTime']`: full-time scores, `null` for unplayed matches. -/
structure FullTime where
  home : Option Int
  away : Option Int
  deriving DecidableEq, Repr

/-- `match['score']`. -/
structure ScoreObj where
  fullTime : FullTime
  deriving DecidableEq, Repr

/-- `goal['team']`: the team object attached to a goal event (its name may be absent). -/
structure GoalTeam where
  name : Option String
  deriving DecidableEq, Repr

/-- `goal['scorer']`: the scorer object attached to a goal event. -/
structure ScorerObj where
  name : Option String
  deriving DecidableEq, Repr

/-- One goal event in a match payload; every field is read with `.get`. -/
structure GoalObj where
  team : Option GoalTeam
  scorer : Option ScorerObj
  minute : Option Int
  score : Option (Option Int × Option Int)
  deriving DecidableEq, Repr

/-- One match object of the matches payload. -/
structure MatchObj where
  id : Int
  homeTeam : TeamRef
  awayTeam : TeamRef
  matchday : Option Int
  utcDate : String
  status : String
  score : ScoreObj
  goals : Option (List GoalObj)
  deriving DecidableEq, Repr

/-- `goal.get('team', \x7b\x7d).get('name', '')`. -/
def goalTeamName (g : GoalObj) : String := (g.team.bind GoalTeam.name).getD ""

/-- The goals the loop iterates over: `if 'goals' in match and match['goals']:`
(an absent key or an empty — falsy — list yields no iterations). -/
def matchGoalsList (m : MatchObj) : List GoalObj :=
  match m.goals with
  | some gs => if gs.isEmpty then [] else gs
  | none => []

/-- One row of `goals_data`:
`[goal_id, match_id, team_id, scorer_name, minute, score]` with the
string-equality team-attribution heuristic and the `'Unknown'` scorer default. -/
def goalRow (m : MatchObj) (homeId awayId gid : Nat) (g : GoalObj) : List Cell :=
  [Cell.nat gid,
   Cell.int m.id,
   Cell.nat (if goalTeamName g = m.homeTeam.name then homeId else awayId),
   Cell.str (match g.scorer with | some s => s.name.getD "Unknown" | none => "Unknown"),
   (match g.minute with | some mi => Cell.int mi | none => Cell.str ""),
   Cell.snap g.score]

/-- One row of `matches_data`:
`[match_id, matchday-or-'N/A', utcDate, home_team_id, away_team_id,
home_score-or-'', away_score-or-'', status]`. -/
def matchRow (m : MatchObj) (homeId awayId : Nat) : List Cell :=
  [Cell.int m.id,
   (match m.matchday with | some d => Cell.int d | none => Cell.str "N/A"),
   Cell.str m.utcDate,
   Cell.nat homeId,
   Cell.nat awayId,
   (match m.score.fullTime.home with | some s => Cell.int s | none => Cell.str ""),
   (match m.score.fullTime.away with | some s => Cell.int s | none => Cell.str ""),
   Cell.str m.status]

/-- The inner goals loop: one `goals_data` row per goal, `goal_id += 1` after each. -/
def goalRowsAux (m : MatchObj) (homeId awayId : Nat) : Nat → List GoalObj → List (List Cell)
  | _, [] => []
  | gid, g :: gs => goalRow m homeId awayId gid g :: goalRowsAux m homeId awayId (gid + 1) gs

/-- The body of the `for match in matches:` loop, threading the registry and the
goal counter; returns final state, final counter, `matches_data`, `goals_data`. -/
def processMatches : List MatchObj → RegState → Nat →
    RegState × Nat × List (List Cell) × List (List Cell)
  | [], st, gid => (st, gid, [], [])
  | m :: ms, st, gid =>
      let r1 := get_or_create_team_id m.homeTeam.name (some m.homeTeam.id) st
      let r2 := get_or_create_team_id m.awayTeam.name (some m.awayTeam.id) r1.2
      let gs := matchGoalsList m
      let rest := processMatches ms r2.2 (gid + gs.length)
      (rest.1, rest.2.1,
       matchRow m r1.1 r2.1 :: rest.2.2.1,
       goalRowsAux m r1.1 r2.1 gid gs ++ rest.2.2.2)

/-- The matches response body: the `'matches'` key may be absent. -/
structure MatchesResponse where
  «matches» : Option (List MatchObj)
  deriving Repr

/-- What `fetch_champions_league_matches` returns to its caller, distinguishing
the three control paths of the Python function. -/
inductive MatchesResult where
  /-- Wrote `matches_<ts>.csv` and `goals_<ts>.csv` with these data rows and
  returned the pair of filenames. -/
  | files (matchesRows goalsRows : List (List Cell))
  /-- The `except` branch: `return None, None`, no files written. -/
  | errPair
  /-- `'matches'` not in the response: the function falls off its end and
  implicitly returns a single bare `None`; no files written. -/
  | bareNone
  deriving DecidableEq, Repr

/-- `fetch_champions_league_matches()`: the stage's input is the outcome of the
HTTP request + JSON parse (`Except.error` models any raised network/parse failure,
caught by the stage's `except` clause). -/
def fetch_champions_league_matches (resp : Except String MatchesResponse)
    (st : RegState) : MatchesResult × RegState :=
  match resp with
  | .error _ => (.errPair, st)
  | .ok data =>
      match data.«matches» with
      | some ms =>
          let r := processMatches ms st 1
          (.files r.2.2.1 r.2.2.2, r.1)
      | none => (.bareNone, st)

/-! ## Standings fetcher -/

/-- One row of a standings table (`team['team']` is the nested team object). -/
structure StandingEntry where
  team : TeamRef
  position : Int
  playedGames : Int
  won : Int
  draw : Int
  lost : Int
  points : Int
  goalsFor : Int
  goalsAgainst : Int
  goalDifference : Int
  deriving DecidableEq, Repr

/-- One standings group; the code reads `data['standings'][0]['table']`. -/
structure StandingGroup where
  table : List StandingEntry
  deriving DecidableEq, Repr

/-- The standings response body: the `'standings'` key may be absent. -/
structure StandingsResponse where
  standings : Option (List StandingGroup)
  deriving Repr

/-- The `for idx, team in enumerate(standings, 1):` loop: resolve the team,
write one row per entry. -/
def standingsRowsAux (idx : Nat) (st : RegState) :
    List StandingEntry → List (List Cell) × RegState
  | [] => ([], st)
  | e :: rest =>
      let r := get_or_create_team_id e.team.name (some e.team.id) st
      let rec' := standingsRowsAux (idx + 1) r.2 rest
      ([Cell.nat idx, Cell.nat r.1, Cell.int e.position, Cell.int e.playedGames,
        Cell.int e.won, Cell.int e.draw, Cell.int e.lost, Cell.int e.points,
        Cell.int e.goalsFor, Cell.int e.goalsAgainst, Cell.int e.goalDifference]
        :: rec'.1, rec'.2)

/-- `fetch_champions_league_standings()`: `none` as first component means no file
was produced (the function returned `None`); `some rows` means a file with those
data rows was written and its name returned.  The guard is
`if 'standings' in data and len(data['standings']) > 0:`. -/
def fetch_champions_league_standings (resp : Except String StandingsResponse)
    (st : RegState) : Option (List (List Cell)) × RegState :=
  match resp with
  | .error _ => (none, st)
  | .ok data =>
      match data.standings with
      | some (g :: _) =>
          let r := standingsRowsAux 1 st g.table
          (some r.1, r.2)
      | some [] => (none, st)
      | none => (none, st)

/-! ## Top scorers fetcher -/

/-- `scorer['player']`. -/
structure ScorerPlayer where
  name : String
  deriving DecidableEq, Repr

/-- One entry of the scorers payload; goals/assists/penalties are read with `.get`. -/
structure TopScorerEntry where
  player : ScorerPlayer
  team : TeamRef
  goals : Option Int
  assists : Option Int
  penalties : Option Int
  deriving DecidableEq, Repr

/-- The scorers response body: the `'scorers'` key may be absent. -/
structure ScorersResponse where
  scorers : Option (List TopScorerEntry)
  deriving Repr

/-- The `for idx, scorer in enumerate(scorers, 1):` loop. -/
def scorersRowsAux (idx : Nat) (st : RegState) :
    List TopScorerEntry → List (List Cell) × RegState
  | [] => ([], st)
  | e :: rest =>
      let r := get_or_create_team_id e.team.name (some e.team.id) st
      let rec' := scorersRowsAux (idx + 1) r.2 rest
      ([Cell.nat idx, Cell.str e.player.name, Cell.nat r.1,
        Cell.int (e.goals.getD 0), Cell.int (e.assists.getD 0),
        Cell.int (e.penalties.getD 0)] :: rec'.1, rec'.2)

/-- `fetch_top_scorers()`: same shape as the standings stage; with `'scorers'`
absent the function falls off its end and implicitly returns `None`. -/
def fetch_top_scorers (resp : Except String ScorersResponse)
    (st : RegState) : Option (List (List Cell)) × RegState :=
  match resp with
  | .error _ => (none, st)
  | .ok data =>
      match data.scorers with
      | some ss =>
          let r := scorersRowsAux 1 st ss
          (some r.1, r.2)
      | none => (none, st)

end ChampsLeague

namespace ChampsLeague

/-! ## Registry lemmas -/

/-- Invariant of every reachable registry state: the stored ids, read in dict
insertion order, are exactly `1, 2, ..., n`, and the counter is the next id. -/
def RegInv (st : RegState) : Prop :=
  st.teams.map (fun p => p.2.id) = List.range' 1 st.teams.length ∧
  st.counter = st.teams.length + 1

theorem regInv_init : RegInv regInit := by
  constructor <;> rfl

theorem regInv_resolve (n : String) (a : Option Int) (st : RegState) (h : RegInv st) :
    RegInv (get_or_create_team_id n a st).2 := by
  unfold get_or_create_team_id
  cases hf : st.teams.find? (fun p => p.1 == n) with
  | some p => exact h
  | none =>
      refine ⟨?_, ?_⟩
      · simp only [List.map_append, List.length_append, List.map_cons, List.map_nil,
          List.length_cons, List.length_nil, h.1, h.2]
        rw [List.range'_1_concat]
        simp [Nat.add_comm]
      · simp [h.2]

theorem regInv_runCalls (calls : List (String × Option Int)) (st : RegState)
    (h : RegInv st) : RegInv (runCalls calls st) := by
  induction calls generalizing st with
  | nil => exact h
  | cons c rest ih => exact ih _ (regInv_resolve c.1 c.2 st h)

/-- Resolving a name a second time gives back the id of the first resolution. -/
theorem resolve_resolve (st : RegState) (n : String) (a1 a2 : Option Int) :
    (get_or_create_team_id n a2 (get_or_create_team_id n a1 st).2).1 =
      (get_or_create_team_id n a1 st).1 := by
  unfold get_or_create_team_id
  cases hf : st.teams.find? (fun p => p.1 == n) with
  | some p => simp [hf]
  | none => simp [hf]

end ChampsLeague

namespace ChampsLeague

/-! ## First-sighting order -/

theorem newNames_congr (l : List String) (s₁ s₂ : List String)
    (h : ∀ x, x ∈ s₁ ↔ x ∈ s₂) : newNames s₁ l = newNames s₂ l := by
  induction l generalizing s₁ s₂ with
  | nil => rfl
  | cons n rest ih =>
      by_cases hn : n ∈ s₁
      · rw [newNames, newNames, if_pos hn, if_pos ((h n).1 hn)]
        exact ih s₁ s₂ h
      · rw [newNames, newNames, if_neg hn, if_neg (fun hx => hn ((h n).2 hx))]
        refine congrArg (n :: ·) (ih _ _ fun x => ?_)
        simp only [List.mem_cons, h x]

theorem keys_resolve_found (n : String) (a : Option Int) (st : RegState)
    (p : String × TeamEntry) (hf : st.teams.find? (fun q => q.1 == n) = some p) :
    (get_or_create_team_id n a st).2 = st := by
  unfold get_or_create_team_id
  rw [hf]

theorem mem_keys_of_find (n : String) (st : RegState) (p : String × TeamEntry)
    (hf : st.teams.find? (fun q => q.1 == n) = some p) : n ∈ regKeys st := by
  have hp := List.find?_some hf
  have hm := List.mem_of_find?_eq_some hf
  have : p.1 = n := by simpa using hp
  exact this ▸ List.mem_map_of_mem Prod.fst hm

theorem not_mem_keys_of_find_none (n : String) (st : RegState)
    (hf : st.teams.find? (fun q => q.1 == n) = none) : n ∉ regKeys st := by
  rw [List.find?_eq_none] at hf
  intro hmem
  rcases List.mem_map.1 hmem with ⟨q, hq, hq1⟩
  exact hf q hq (by simp [hq1])

/-- Running a call sequence appends to the dict exactly the fresh names, in
first-sighting order. -/
theorem runCalls_keys (calls : List (String × Option Int)) (st : RegState) :
    regKeys (runCalls calls st) =
      regKeys st ++ newNames (regKeys st) (calls.map Prod.fst) := by
  induction calls generalizing st with
  | nil => simp [runCalls, newNames]
  | cons c rest ih =>
      obtain ⟨n, a⟩ := c
      rw [runCalls]
      cases hf : st.teams.find? (fun q => q.1 == n) with
      | some p =>
          rw [keys_resolve_found n a st p hf, ih st, List.map_cons, newNames,
            if_pos (mem_keys_of_find n st p hf)]
      | none =>
          have hnot := not_mem_keys_of_find_none n st hf
          have hst2 : (get_or_create_team_id n a st).2 =
              ⟨st.teams ++ [(n, ⟨st.counter, n, a⟩)], st.counter + 1⟩ := by
            unfold get_or_create_team_id
            rw [hf]
          rw [hst2, ih]
          have hkeys : regKeys ⟨st.teams ++ [(n, ⟨st.counter, n, a⟩)], st.counter + 1⟩ =
              regKeys st ++ [n] := by
            simp [regKeys]
          rw [hkeys, List.map_cons, newNames, if_neg hnot,
            newNames_congr (rest.map Prod.fst) (regKeys st ++ [n]) (n :: regKeys st)
              (fun x => by simp [or_comm])]
          simp

/-- C1 helper: ids of a reachable state, in insertion order, are `1..n`. -/
theorem reachable_ids (calls : List (String × Option Int)) :
    (runCalls calls regInit).teams.map (fun p => p.2.id) =
      List.range' 1 (runCalls calls regInit).teams.length :=
  (regInv_runCalls calls regInit regInv_init).1

/-- **C1.** For every sequence of `get_or_create_team_id` calls starting from the
initial registry, the synthetic ids stored in the dict are `1, 2, ..., n` in
insertion order — insertion order being the order of first sighting of each
distinct `display_name` — and resolving a name already resolved earlier returns
the id of the first resolution, whatever `source_id` either call passes. -/
theorem registry_ids_sequential_and_stable (calls : List (String × Option Int))
    (n : String) (a1 a2 : Option Int) :
    ((runCalls calls regInit).teams.map (fun p => p.2.id) =
        List.range' 1 (runCalls calls regInit).teams.length) ∧
    ((runCalls calls regInit).teams.map Prod.fst = newNames [] (calls.map Prod.fst)) ∧
    ((get_or_create_team_id n a2 (get_or_create_team_id n a1 (runCalls calls regInit)).2).1 =
        (get_or_create_team_id n a1 (runCalls calls regInit)).1) := by
  refine ⟨reachable_ids calls, ?_, resolve_resolve _ n a1 a2⟩
  have h := runCalls_keys calls regInit
  simpa [regKeys, regInit] using h

end ChampsLeague

namespace ChampsLeague

/-! ## Teams export (C4) -/

theorem insertById_of_lt (p : String × TeamEntry) (l : List (String × TeamEntry))
    (h : ∀ q ∈ l, p.2.id < q.2.id) : insertById p l = p :: l := by
  cases l with
  | nil => rfl
  | cons q rest =>
      rw [insertById, if_neg]
      exact Nat.not_le.2 (h q (List.mem_cons_self q rest))

/-- A stable sort by id of a list whose ids are already strictly increasing is
the identity. -/
theorem sortById_eq_self (l : List (String × TeamEntry))
    (h : l.Pairwise (fun a b => a.2.id < b.2.id)) : sortById l = l := by
  induction l with
  | nil => rfl
  | cons p rest ih =>
      rw [List.pairwise_cons] at h
      rw [sortById, ih h.2, insertById_of_lt p rest h.1]

/-- The ids of a reachable state are pairwise strictly increasing. -/
theorem reachable_pairwise (calls : List (String × Option Int)) :
    (runCalls calls regInit).teams.Pairwise (fun a b => a.2.id < b.2.id) := by
  have h := reachable_ids calls
  have hp : ((runCalls calls regInit).teams.map (fun p => p.2.id)).Pairwise (· < ·) := by
    rw [h]
    exact List.pairwise_lt_range' 1 _ 1
  exact List.pairwise_map.1 hp

/-- **C4.** On every state reachable from the initial registry,
`save_teams_table` emits exactly one data row `[synthetic_id, display_name,
source_id]` per dict entry, in dict insertion order (so ascending-id order and
insertion order coincide); the id column is `1, 2, ..., n`; and insertion
order is the order of first sighting of each distinct name across all the
resolve calls made by all stages. -/
theorem teams_export_rows (calls : List (String × Option Int)) :
    save_teams_table (runCalls calls regInit) =
        (runCalls calls regInit).teams.map (fun p =>
          [Cell.nat p.2.id, Cell.str p.2.name,
           match p.2.api_id with | some i => Cell.int i | none => Cell.pynone]) ∧
    (save_teams_table (runCalls calls regInit)).map (fun r => r.headD Cell.pynone) =
        (List.range' 1 (runCalls calls regInit).teams.length).map Cell.nat ∧
    (runCalls calls regInit).teams.map Prod.fst = newNames [] (calls.map Prod.fst) := by
  have hsort : sortById (runCalls calls regInit).teams = (runCalls calls regInit).teams :=
    sortById_eq_self _ (reachable_pairwise calls)
  refine ⟨?_, ?_, ?_⟩
  · rw [save_teams_table, hsort]
  · rw [save_teams_table, hsort, List.map_map, ← reachable_ids calls, List.map_map]
    rfl
  · simpa [regKeys, regInit] using runCalls_keys calls regInit

end ChampsLeague

namespace ChampsLeague

/-! ## Goal ids (C2) -/

theorem goalRowsAux_length (m : MatchObj) (hid aid : Nat) (gid : Nat)
    (gs : List GoalObj) : (goalRowsAux m hid aid gid gs).length = gs.length := by
  induction gs generalizing gid with
  | nil => rfl
  | cons g rest ih => simp [goalRowsAux, ih]

theorem goalRowsAux_ids (m : MatchObj) (hid aid : Nat) (gid : Nat)
    (gs : List GoalObj) :
    (goalRowsAux m hid aid gid gs).map (fun r => r.headD Cell.pynone) =
      (List.range' gid gs.length).map Cell.nat := by
  induction gs generalizing gid with
  | nil => rfl
  | cons g rest ih =>
      rw [goalRowsAux, List.map_cons, List.length_cons, List.range'_succ, List.map_cons,
        ih (gid + 1)]
      rfl

theorem processMatches_goals_len (ms : List MatchObj) (st : RegState) (gid : Nat) :
    (processMatches ms st gid).2.1 = gid + (processMatches ms st gid).2.2.2.length := by
  induction ms generalizing st gid with
  | nil => rfl
  | cons m rest ih =>
      simp only [processMatches, List.length_append, goalRowsAux_length]
      rw [ih]
      omega

theorem processMatches_goal_ids (ms : List MatchObj) (st : RegState) (gid : Nat) :
    (processMatches ms st gid).2.2.2.map (fun r => r.headD Cell.pynone) =
      (List.range' gid (processMatches ms st gid).2.2.2.length).map Cell.nat := by
  induction ms generalizing st gid with
  | nil => rfl
  | cons m rest ih =>
      simp only [processMatches, List.map_append, List.length_append, goalRowsAux_length,
        goalRowsAux_ids]
      rw [ih, ← List.map_append, List.range'_append_1, Nat.add_comm]

/-- **C2.** Over any matches payload, the `goal_id` column of `goals_data` is
exactly `1, 2, ..., n` (one global counter starting at 1, never reset between
matches): ids are strictly increasing, duplicate-free, and the counter's final
value is `1 + n` whatever the distribution of goals over matches (zero-goal
matches included). -/
theorem goal_ids_globally_increasing (ms : List MatchObj) (st : RegState) :
    ((processMatches ms st 1).2.2.2.map (fun r => r.headD Cell.pynone) =
        (List.range' 1 (processMatches ms st 1).2.2.2.length).map Cell.nat) ∧
    ((processMatches ms st 1).2.2.2.map (fun r => r.headD Cell.pynone)).Nodup ∧
    (processMatches ms st 1).2.1 = 1 + (processMatches ms st 1).2.2.2.length := by
  refine ⟨processMatches_goal_ids ms st 1, ?_, processMatches_goals_len ms st 1⟩
  rw [processMatches_goal_ids ms st 1]
  exact (List.nodup_range' 1 _ 1).map fun a b h => Cell.nat.inj h

end ChampsLeague

namespace ChampsLeague

/-! ## Per-goal and per-match row properties (C3, C9, C10) -/

/-- **C3.** For every goal event of a match, the `team_id` written to its
`goals_data` row is the home team's id exactly when the goal's team-name string
equals the match's home-team name, and the away team's id in every other case —
the away-team name is never consulted, so a name matching neither side still
goes to the away id. -/
theorem goal_team_attribution (m : MatchObj) (hid aid gid i : Nat)
    (gs : List GoalObj) (g : GoalObj) (h : gs[i]? = some g) :
    ((goalRowsAux m hid aid gid gs)[i]?.map (fun r => r[2]?)) =
      some (some (Cell.nat (if goalTeamName g = m.homeTeam.name then hid else aid))) := by
  induction gs generalizing i gid with
  | nil => simp at h
  | cons g0 rest ih =>
      cases i with
      | zero =>
          rw [List.getElem?_cons_zero] at h
          cases h
          simp [goalRowsAux, goalRow]
      | succ j =>
          rw [List.getElem?_cons_succ] at h
          rw [goalRowsAux, List.getElem?_cons_succ]
          exact ih (gid + 1) j h

/-- A sample match: home team "Real", away team "Barca", no matchday, no
full-time score, a single goal event. -/
def gNeutral : GoalObj := ⟨some ⟨some "Zenit"⟩, none, none, none⟩

def mSample : MatchObj :=
  ⟨101, ⟨"Real", 5⟩, ⟨"Barca", 6⟩, none, "2026-01-01T20:00:00Z", "FINISHED",
   ⟨⟨none, none⟩⟩, some [gNeutral]⟩

theorem goal_team_attribution_witness :
    ((goalRowsAux mSample 1 2 1 [gNeutral])[0]?.map (fun r => r[2]?)) =
      some (some (Cell.nat 2)) := by
  have h := goal_team_attribution mSample 1 2 1 0 [gNeutral] gNeutral rfl
  rw [h]
  decide

/-- **C9.** For every goal event whose scorer name is absent — the scorer object
missing or empty, or present without a name value — the `scorer_name` cell of
its `goals_data` row is the literal string `"Unknown"`. -/
theorem scorer_name_unknown (m : MatchObj) (hid aid gid i : Nat)
    (gs : List GoalObj) (g : GoalObj) (h : gs[i]? = some g)
    (hs : g.scorer.bind ScorerObj.name = none) :
    ((goalRowsAux m hid aid gid gs)[i]?.map (fun r => r[3]?)) =
      some (some (Cell.str "Unknown")) := by
  induction gs generalizing i gid with
  | nil => simp at h
  | cons g0 rest ih =>
      cases i with
      | zero =>
          rw [List.getElem?_cons_zero] at h
          cases h
          cases hg : g.scorer with
          | none => simp [goalRowsAux, goalRow, hg]
          | some s =>
              rw [hg] at hs
              simp only [Option.some_bind] at hs
              simp [goalRowsAux, goalRow, hg, hs]
      | succ j =>
          rw [List.getElem?_cons_succ] at h
          rw [goalRowsAux, List.getElem?_cons_succ]
          exact ih (gid + 1) j h

theorem scorer_name_unknown_witness :
    ((goalRowsAux mSample 1 2 1 [gNeutral])[0]?.map (fun r => r[3]?)) =
      some (some (Cell.str "Unknown")) :=
  scorer_name_unknown mSample 1 2 1 0 [gNeutral] gNeutral rfl rfl

/-- **C10.** For a match lacking a matchday value, the `match_day` cell of its
`matches_data` row is the literal string `"N/A"` — not the empty string — while
missing full-time scores are written as the empty string. -/
theorem matchday_na (m : MatchObj) (hid aid : Nat) (h : m.matchday = none) :
    (matchRow m hid aid)[1]? = some (Cell.str "N/A") ∧
    (matchRow m hid aid)[1]? ≠ some (Cell.str "") ∧
    (m.score.fullTime.home = none → (matchRow m hid aid)[5]? = some (Cell.str "")) ∧
    (m.score.fullTime.away = none → (matchRow m hid aid)[6]? = some (Cell.str "")) := by
  refine ⟨?_, ?_, ?_, ?_⟩
  · simp [matchRow, h]
  · simp [matchRow, h]
  · intro hh
    simp [matchRow, hh]
  · intro ha
    simp [matchRow, ha]

theorem matchday_na_witness :
    (matchRow mSample 1 2)[1]? = some (Cell.str "N/A") :=
  (matchday_na mSample 1 2 rfl).1

/-! ## Stage boundary behavior (C5, C6, C7) -/

/-- **C5** (code evaluated at the failing input).  When the matches response
parses but has no `'matches'` key, the stage writes no file — but it returns a
single bare `None` (falling off the end of the function), not the pair
`(None, None)` its `except` branch and its caller's tuple-unpacking expect. -/
theorem matches_key_absent_bare_none :
    fetch_champions_league_matches (Except.ok ⟨none⟩) regInit =
        (MatchesResult.bareNone, regInit) ∧
    MatchesResult.bareNone ≠ MatchesResult.errPair :=
  ⟨rfl, by decide⟩

/-- **C6.** A network/parse failure raised inside any of the three fetch stages
is absorbed at the stage boundary: standings returns `None`, matches+goals
returns the pair `(None, None)`, scorers returns `None`; in all three cases no
file is written, the registry is untouched, and nothing propagates. -/
theorem stage_failures_absorbed (e : String) (st : RegState) :
    fetch_champions_league_standings (Except.error e) st = (none, st) ∧
    fetch_champions_league_matches (Except.error e) st = (MatchesResult.errPair, st) ∧
    fetch_top_scorers (Except.error e) st = (none, st) :=
  ⟨rfl, rfl, rfl⟩

/-- **C7.** A standings response whose top-level `'standings'` collection is
present but empty produces no file, leaves the registry unchanged, and raises
nothing: the stage returns the no-op outcome `None`. -/
theorem empty_standings_no_file (st : RegState) :
    fetch_champions_league_standings (Except.ok ⟨some []⟩) st = (none, st) :=
  rfl

/-! ## Repeat resolution (C8) -/

/-- **C8.** Resolving a display name already stored in the dict returns the
stored synthetic id and returns the state completely unchanged — same entries,
same counter — for every `source_id` the repeat call passes. -/
theorem repeat_resolve_unchanged (st : RegState) (n : String)
    (e : String × TeamEntry) (a2 : Option Int)
    (h : st.teams.find? (fun p => p.1 == n) = some e) :
    get_or_create_team_id n a2 st = (e.2.id, st) := by
  unfold get_or_create_team_id
  rw [h]

/-- The registry after first resolving "Real" with api id 5. -/
def stReal : RegState := (get_or_create_team_id "Real" (some 5) regInit).2

theorem repeat_resolve_unchanged_witness :
    get_or_create_team_id "Real" (some 99) stReal = (1, stReal) :=
  repeat_resolve_unchanged stReal "Real" ("Real", ⟨1, "Real", some 5⟩) (some 99) (by decide)

end ChampsLeague
